import Mathlib

/-!
# dlock: the etcd-backed distributed lock (`lock.go`)

A shallow embedding of `distributedLock.TryGetLock` and
`distributedLock.isLockMaster`, together with a model of the part of the
coordination store's contract that the acquisition transaction uses.

Conventions of the embedding

* Go `string` and `[]byte` values are `String`; only equality is used on them,
  and the namespace test of the first-created read goes through their
  character lists.
* `int32`/`int64` values are `Int`; the source performs no arithmetic on them.
* A Go pointer that may be `nil` is an `Option`.
* A run-time panic (index out of range, nil dereference) is an explicit
  outcome: `isLockMaster` returns `Option Bool`, `TryGetLock` a `Result`.
* The environment of one call (`clientv3.New`, `os.Hostname`, `Grant`,
  `Txn(...).Commit`) is a record `Env` of the answers the call would get.
* Side effects of a call are recorded, in program order, as a list of `Event`s.
-/

namespace DLock

/-! ## Data returned by the store (`mvccpb.KeyValue`, `clientv3.TxnResponse`) -/

/-- The fields of `mvccpb.KeyValue` the program or the store model looks at. -/
structure KeyValue where
  Key : String
  CreateRevision : Int
  ModRevision : Int
  Value : String
  Lease : Int
  deriving DecidableEq, Repr

/-- One entry of `TxnResponse.Responses`: the answer to a range (get) request
carries key-value pairs; the answers to other requests carry none. -/
inductive ResponseOp where
  | range (Kvs : List KeyValue)
  | put
  | deleteRange
  | txn
  deriving DecidableEq, Repr

/-- `ResponseOp.GetResponseRange()`: the range answer, or `nil` when the entry
answers another kind of request. -/
def ResponseOp.GetResponseRange : ResponseOp → Option (List KeyValue)
  | .range kvs => some kvs
  | _ => none

/-- `clientv3.TxnResponse`: whether the condition held, and the answers of the
branch that ran. -/
structure TxnResponse where
  Succeeded : Bool
  Responses : List ResponseOp
  deriving DecidableEq, Repr

/-! ## `isLockMaster` (lock.go, lines 57-69) -/

/-- The classifier `isLockMaster`. `host` is what `os.Hostname()` returns
inside the call. `none` is a panic: an index out of range or the `.Kvs` of a
`nil` range answer. -/
def isLockMaster (host : String) (rsp : TxnResponse) : Option Bool :=
  if rsp.Succeeded then
    some true
  else do
    let r0 ← rsp.Responses[0]?
    let range0 ← r0.GetResponseRange
    let kv0 ← range0[0]?
    let v := kv0.Value
    let revision := kv0.CreateRevision
    let r1 ← rsp.Responses[1]?
    let ownerKey ← r1.GetResponseRange
    let firstOk : Bool :=
      match ownerKey with
      | [] => true
      | k :: _ => decide (k.CreateRevision = revision)
    if firstOk && decide (v = host) then some true else some false

/-- A response is well formed for the classifier: when the condition failed,
the first answer is a range holding the key's pair and the second answer is a
range (the first-created read, possibly empty). -/
def WellFormed (rsp : TxnResponse) : Prop :=
  rsp.Succeeded = false →
    ∃ kv kvs ownerKey rest,
      rsp.Responses = ResponseOp.range (kv :: kvs) :: ResponseOp.range ownerKey :: rest

/-- The disambiguation rule in the words of the specification: the condition
succeeded, or the key's value `v` is the caller's identity and the
first-created read is empty or has the key's creation revision `rev`. -/
def masterRule (host : String) (rsp : TxnResponse) : Prop :=
  rsp.Succeeded = true ∨
    ∃ kv kvs ownerKey rest,
      rsp.Responses = ResponseOp.range (kv :: kvs) :: ResponseOp.range ownerKey :: rest ∧
      (ownerKey = [] ∨ ∃ k ks, ownerKey = k :: ks ∧ k.CreateRevision = kv.CreateRevision) ∧
      kv.Value = host

/-! ## The lock handle (`distributedLock`, `DistributedLockOptions`, `DistributedLockStub`) -/

/-- A constructed `*clientv3.Client`; the program only tests it against `nil`
and calls its methods. -/
structure Client where
  id : Nat
  deriving DecidableEq, Repr

/-- The `clientv3.Config` the program passes to `clientv3.New`. -/
structure Config where
  Endpoints : List String
  DialTimeoutSeconds : Nat
  deriving DecidableEq, Repr

/-- `DistributedLockStub`: `isMaster` is a `*int32` (`none` is the nil pointer,
`some x` a cell holding `x`), `Owner` the identity written to the key. -/
structure DistributedLockStub where
  isMaster : Option Int
  Owner : String
  deriving DecidableEq, Repr

/-- The fields of `DistributedLockOptions` that `TryGetLock` reads or writes.
The callback `HoldingLockFunc` is not state: its dispatch is an `Event`. -/
structure DistributedLockOptions where
  ETCDAddress : String
  Key : String
  TTL : Int
  etcdClient : Option Client
  deriving DecidableEq, Repr

/-- The handle `distributedLock`; `stub` is a pointer, `nil` until the first
call. -/
structure distributedLock where
  options : DistributedLockOptions
  stub : Option DistributedLockStub
  deriving DecidableEq, Repr

/-! ## The transaction built by `TryGetLock` (lock.go, lines 40-44) -/

/-- The three request kinds the program builds. -/
inductive Op where
  /-- The request `clientv3.OpPut(key, val, clientv3.WithLease(lease))`. -/
  | put (key val : String) (lease : Int)
  /-- The request `clientv3.OpGet(key)`. -/
  | get (key : String)
  /-- The request `clientv3.OpGet(key, clientv3.WithFirstCreate()...)`. -/
  | getFirstCreate (key : String)
  deriving DecidableEq, Repr

/-- The comparison `clientv3.Compare(clientv3.CreateRevision(key), "=", v)`. -/
structure Cmp where
  key : String
  createRevision : Int
  deriving DecidableEq, Repr

/-- A transaction `Txn(ctx).If(cmp).Then(...).Else(...)`. -/
structure Txn where
  If : Cmp
  Then : List Op
  Else : List Op
  deriving DecidableEq, Repr

/-- Lines 40-44: the acquisition transaction for `key`, writing `owner` under
`lease`. -/
def acquireTxn (key owner : String) (lease : Int) : Txn :=
  { If := ⟨key, 0⟩
    Then := [.put key owner lease, .getFirstCreate key]
    Else := [.get key, .getFirstCreate key] }

/-! ## `TryGetLock` (lock.go, lines 18-55) -/

/-- What the surroundings answer during one call of `TryGetLock`. -/
structure Env where
  /-- The call `clientv3.New(cfg)`. -/
  New : Config → Except String Client
  /-- The call `os.Hostname()` (its error is discarded by the program). -/
  Hostname : String
  /-- The call `etcdClient.Grant(ctx, ttl)`; the answer is the lease ID. -/
  Grant : Int → Except String Int
  /-- The call `etcdClient.Txn(ctx).If(..).Then(..).Else(..).Commit()`. -/
  Commit : Txn → Except String TxnResponse

/-- The externally visible actions of a call, in program order. -/
inductive Event where
  | newClient (cfg : Config)
  | grant (ttl : Int)
  | keepAlive (lease : Int)
  | commit (t : Txn)
  /-- The statement `go dl.options.HoldingLockFunc(dl, stub)`: `dl` is the
  handle as it stands when the goroutine is started. -/
  | holdingLock (dl : distributedLock) (stub : DistributedLockStub)
  deriving DecidableEq, Repr

/-- How a call ends: it returns an `error` (`none` is `nil`) or panics. -/
inductive Result where
  | returned (err : Option String)
  | panicked
  deriving DecidableEq, Repr

/-- The outcome of one call: the handle afterwards, how the call ended, what it
did, and what `isLockMaster` returned if line 48 was reached and returned. -/
structure Outcome where
  dl : distributedLock
  result : Result
  events : List Event
  master : Option Bool
  deriving DecidableEq, Repr

/-- Lines 27-29: the stub created on the first call. -/
def newStub (host : String) : DistributedLockStub :=
  { isMaster := some 0, Owner := host }

/-- The literal `DistributedLockStub{}` of line 50. -/
def zeroStub : DistributedLockStub :=
  { isMaster := none, Owner := "" }

/-- The configuration of lines 21-24. -/
def clientConfig (dl : distributedLock) : Config :=
  { Endpoints := [dl.options.ETCDAddress], DialTimeoutSeconds := 5 }

/-- Lines 20-25: the client in use after the lazy construction, or the error of
`clientv3.New`. -/
def clientOf (dl : distributedLock) (e : Env) : Except String Client :=
  match dl.options.etcdClient with
  | some c => .ok c
  | none => e.New (clientConfig dl)

/-- Lines 20-25: `clientv3.New` is called only when the handle has no client. -/
def clientEvents (dl : distributedLock) : List Event :=
  match dl.options.etcdClient with
  | some _ => []
  | none => [.newClient (clientConfig dl)]

/-- Lines 20-25: the options after the assignment to `dl.options.etcdClient`
(`clientv3.New` returns a `nil` client together with an error). -/
def optionsAfter (dl : distributedLock) (e : Env) : DistributedLockOptions :=
  { dl.options with etcdClient :=
      match clientOf dl e with
      | .ok c => some c
      | .error _ => none }

/-- Lines 26-30: the stub in use after the lazy construction. -/
def baseStub (dl : distributedLock) (e : Env) : DistributedLockStub :=
  match dl.stub with
  | some s => s
  | none => newStub e.Hostname

/-- `TryGetLock`, one call on handle `dl` in surroundings `e`. -/
def TryGetLock (dl : distributedLock) (e : Env) : Outcome :=
  -- lines 19-25
  let ev0 := clientEvents dl
  let client := clientOf dl e
  let options := optionsAfter dl e
  -- lines 26-30
  let stub := baseStub dl e
  let dl2 : distributedLock := { options := options, stub := some stub }
  -- lines 31-33
  match client with
  | .error m => ⟨dl2, .returned (some ("Failed to initialize ETCD client: " ++ m)), ev0, none⟩
  | .ok _ =>
    -- lines 34-37
    match e.Grant dl.options.TTL with
    | .error m =>
      ⟨dl2, .returned (some ("Failed to grant lease: " ++ m)), ev0 ++ [.grant dl.options.TTL], none⟩
    | .ok lease =>
      -- lines 39-44
      let t := acquireTxn dl.options.Key stub.Owner lease
      let ev1 := ev0 ++ [.grant dl.options.TTL, .keepAlive lease, .commit t]
      match e.Commit t with
      | .error m => ⟨dl2, .returned (some m), ev1, none⟩
      | .ok rsp =>
        -- lines 48-54
        match isLockMaster e.Hostname rsp with
        | none => ⟨dl2, .panicked, ev1, none⟩
        | some false => ⟨dl2, .returned none, ev1, some false⟩
        | some true =>
          match stub.isMaster with
          | none => ⟨dl2, .panicked, ev1, some true⟩
          | some x =>
            if x = 0 then
              let dl3 : distributedLock :=
                { options := options, stub := some { stub with isMaster := some 1 } }
              ⟨dl3, .returned none, ev1 ++ [.holdingLock dl3 zeroStub], some true⟩
            else
              ⟨dl2, .returned none, ev1, some true⟩

/-- The events of a call that reached the commit with lease `lease`. -/
def commitEvents (dl : distributedLock) (e : Env) (lease : Int) : List Event :=
  clientEvents dl ++ [.grant dl.options.TTL, .keepAlive lease,
    .commit (acquireTxn dl.options.Key (baseStub dl e).Owner lease)]

/-- The handle after lines 19-30. -/
def handleAfterInit (dl : distributedLock) (e : Env) : distributedLock :=
  { options := optionsAfter dl e, stub := some (baseStub dl e) }

/-- The handle after a successful compare-and-swap on line 49. -/
def handleAfterSwap (dl : distributedLock) (e : Env) : distributedLock :=
  { options := optionsAfter dl e, stub := some { baseStub dl e with isMaster := some 1 } }

/-! ## Sequences of calls on one handle -/

/-- The outcomes of a sequence of calls, each starting from the handle the
previous one left. -/
def run : distributedLock → List Env → List Outcome
  | _, [] => []
  | dl, e :: es => TryGetLock dl e :: run (TryGetLock dl e).dl es

/-- The handle after a sequence of calls. -/
def stateAfter : distributedLock → List Env → distributedLock
  | dl, [] => dl
  | dl, e :: es => stateAfter (TryGetLock dl e).dl es

/-- Whether an event is a dispatch of `HoldingLockFunc`. -/
def Event.isHoldingLock : Event → Bool
  | .holdingLock _ _ => true
  | _ => false

/-- The number of callback dispatches among the events of one call. -/
def dispatched (evs : List Event) : Nat :=
  (evs.filter Event.isHoldingLock).length

/-- The number of callback dispatches over a sequence of calls. -/
def totalDispatched (os : List Outcome) : Nat :=
  (os.map (fun o => dispatched o.events)).sum

/-- The value of the handle's `isMaster` cell, if the stub and the cell exist. -/
def flag (dl : distributedLock) : Option Int :=
  match dl.stub with
  | some s => s.isMaster
  | none => none

/-- The owner recorded in the handle's stub, if the stub exists. -/
def owner (dl : distributedLock) : Option String :=
  match dl.stub with
  | some s => some s.Owner
  | none => none

/-- The number of calls of a sequence that move the `isMaster` cell to 1 from
another state. -/
def flips : distributedLock → List Env → Nat
  | _, [] => 0
  | dl, e :: es =>
    (if flag dl ≠ some 1 ∧ flag (TryGetLock dl e).dl = some 1 then 1 else 0)
      + flips (TryGetLock dl e).dl es

/-- The stub of a handle is absent, or its cell holds 0 or 1. -/
def StubOK (dl : distributedLock) : Prop :=
  dl.stub = none ∨ flag dl = some 0 ∨ flag dl = some 1

/-! ## Which of the three fallible steps of a call fails -/

/-- Client construction is attempted and fails. -/
def clientInitFails (dl : distributedLock) (e : Env) : Prop :=
  ∃ m, clientOf dl e = .error m

/-- The lease grant is reached and fails. -/
def leaseGrantFails (dl : distributedLock) (e : Env) : Prop :=
  ¬ clientInitFails dl e ∧ ∃ m, e.Grant dl.options.TTL = .error m

/-- The transaction commit is reached and fails. -/
def commitFails (dl : distributedLock) (e : Env) : Prop :=
  ¬ clientInitFails dl e ∧
    ∃ lease, e.Grant dl.options.TTL = .ok lease ∧
      ∃ m, e.Commit (acquireTxn dl.options.Key (baseStub dl e).Owner lease) = .error m

/-- All three steps succeed, the commit answering `rsp`. -/
def allSucceed (dl : distributedLock) (e : Env) (rsp : TxnResponse) : Prop :=
  (∃ c, clientOf dl e = .ok c) ∧
    ∃ lease, e.Grant dl.options.TTL = .ok lease ∧
      e.Commit (acquireTxn dl.options.Key (baseStub dl e).Owner lease) = .ok rsp

/-! ## The coordination store -/

/-- Modelled from the spec: the coordination store, an external collaborator
whose code is not part of the repository. Its state is the present keys, each
with one value and one creation revision, and the store revision, from which
creation revisions are assigned in increasing order. -/
structure Store where
  kvs : List KeyValue
  revision : Nat
  deriving DecidableEq, Repr

/-- Modelled from the spec: `get(key)`, the pair stored under `key` if the key
is present. -/
def Store.lookup (st : Store) (key : String) : Option KeyValue :=
  st.kvs.find? (fun kv => decide (kv.Key = key))

/-- Modelled from the spec: the creation revision the condition of a
transaction sees; it is 0 for a key that does not exist. -/
def Store.createRevision (st : Store) (key : String) : Int :=
  match st.lookup key with
  | some kv => kv.CreateRevision
  | none => 0

/-- Modelled from the spec: `key` belongs to the namespace `ns` (shares it as
leading part). -/
def inNamespace (ns key : String) : Bool :=
  ns.data.isPrefixOf key.data

/-- Modelled from the spec: of a list of pairs, the one with the smallest
creation revision (the earlier in the list among equals), as a list of at most
one pair. -/
def firstCreated : List KeyValue → List KeyValue
  | [] => []
  | kv :: rest =>
    match firstCreated rest with
    | [] => [kv]
    | m :: _ => if kv.CreateRevision ≤ m.CreateRevision then [kv] else [m]

/-- Modelled from the spec: `getFirstCreated(namespacePrefix)`, the pair with
the smallest creation revision among the keys of the namespace, or empty. -/
def Store.getFirstCreate (st : Store) (ns : String) : List KeyValue :=
  firstCreated (st.kvs.filter (fun kv => inNamespace ns kv.Key))

/-- Modelled from the spec: writing `key` at revision `rev`. A key that does
not exist is created with creation revision `rev`; an existing key keeps its
creation revision. -/
def Store.put (st : Store) (rev : Int) (key val : String) (lease : Int) : Store :=
  match st.lookup key with
  | some _ =>
    { st with kvs := st.kvs.map (fun kv =>
        if kv.Key = key then { kv with Value := val, ModRevision := rev, Lease := lease }
        else kv) }
  | none =>
    { st with kvs := st.kvs ++ [⟨key, rev, rev, val, lease⟩] }

/-- Modelled from the spec: one operation of a transaction branch, applied at
revision `rev`, with its answer. -/
def Store.applyOp (rev : Int) (st : Store) : Op → Store × ResponseOp
  | .put key val lease => (st.put rev key val lease, .put)
  | .get key => (st, .range (st.lookup key).toList)
  | .getFirstCreate key => (st, .range (st.getFirstCreate key))

/-- Modelled from the spec: the operations of a branch, applied in order. -/
def Store.applyOps (rev : Int) : Store → List Op → Store × List ResponseOp
  | st, [] => (st, [])
  | st, op :: ops =>
    let r := st.applyOp rev op
    let rs := Store.applyOps rev r.1 ops
    (rs.1, r.2 :: rs.2)

/-- Whether a request writes. -/
def Op.isWrite : Op → Bool
  | .put _ _ _ => true
  | _ => false

/-- Modelled from the spec: `transaction(condition, thenOps, elseOps)`,
committed as one indivisible step: the condition is evaluated, the branch it
selects is applied, and the store revision advances if the branch wrote. -/
def Store.commit (st : Store) (t : Txn) : TxnResponse × Store :=
  let ok : Bool := decide (st.createRevision t.If.key = t.If.createRevision)
  let ops := if ok then t.Then else t.Else
  let r := Store.applyOps ((st.revision + 1 : Nat) : Int) st ops
  (⟨ok, r.2⟩, if ops.any Op.isWrite then { r.1 with revision := st.revision + 1 } else r.1)

/-- Modelled from the spec: the store after the key has been created by a winning transaction. -/
def Store.created (st : Store) (key owner : String) (lease : Int) : Store :=
  { kvs := st.kvs ++ [⟨key, ((st.revision + 1 : Nat) : Int), ((st.revision + 1 : Nat) : Int),
      owner, lease⟩]
    revision := st.revision + 1 }

/-- Processes, each with its identity and its lease, commit their acquisition
transactions for `key` one after the other; the answers, in commit order. -/
def race (key : String) : Store → List (String × Int) → List TxnResponse
  | _, [] => []
  | st, p :: ps =>
    (st.commit (acquireTxn key p.1 p.2)).1 ::
      race key (st.commit (acquireTxn key p.1 p.2)).2 ps

/-- The value a response reports for the contended key, if it reports one. -/
def valueRead (rsp : TxnResponse) : Option String :=
  match rsp.Responses with
  | .range (kv :: _) :: _ => some kv.Value
  | _ => none

/-! ## A handle operating against the store -/

/-- What the surroundings other than the store answer during one call. -/
structure World where
  New : Config → Except String Client
  Hostname : String
  Grant : Int → Except String Int
  /-- A failure of the commit call before it reaches the store, if any. -/
  CommitErr : Option String

/-- The surroundings of a call whose commit, unless it fails, is answered by
the store in state `st`. -/
def World.env (w : World) (st : Store) : Env :=
  { New := w.New
    Hostname := w.Hostname
    Grant := w.Grant
    Commit := fun t =>
      match w.CommitErr with
      | some m => .error m
      | none => .ok (st.commit t).1 }

/-- The transaction a call issued, if it issued one. -/
def committed : List Event → Option Txn
  | [] => none
  | .commit t :: _ => some t
  | _ :: evs => committed evs

/-- One call of `TryGetLock` against the store: the store afterwards and the
outcome of the call. -/
def TryGetLockOn (st : Store) (dl : distributedLock) (w : World) : Store × Outcome :=
  let out := TryGetLock dl (w.env st)
  let st2 :=
    match w.CommitErr, committed out.events with
    | none, some t => (st.commit t).2
    | _, _ => st
  (st2, out)

/-! ## Concrete scenarios -/

/-- A handle before its first call: no client, no stub. -/
def freshHandle : distributedLock :=
  { options := { ETCDAddress := "127.0.0.1:2379", Key := "lock", TTL := 10, etcdClient := none }
    stub := none }

/-- A handle that already holds a client and a stub whose cell is 0. -/
def readyHandle : distributedLock :=
  { options := { ETCDAddress := "127.0.0.1:2379", Key := "lock", TTL := 10,
                 etcdClient := some ⟨1⟩ }
    stub := some { isMaster := some 0, Owner := "hostA" } }

/-- Surroundings on host "hostA" in which everything succeeds and the
transaction condition holds. -/
def envWin : Env :=
  { New := fun _ => .ok ⟨1⟩
    Hostname := "hostA"
    Grant := fun _ => .ok 7
    Commit := fun _ => .ok ⟨true, [.put, .range []]⟩ }

/-- Surroundings on host "hostA" in which `clientv3.New` fails. -/
def envNoClient : Env :=
  { New := fun _ => .error "dial tcp: connection refused"
    Hostname := "hostA"
    Grant := fun _ => .ok 7
    Commit := fun _ => .ok ⟨true, [.put, .range []]⟩ }

/-- Surroundings on host "hostA" in which the commit fails. -/
def envCommitError : Env :=
  { New := fun _ => .ok ⟨1⟩
    Hostname := "hostA"
    Grant := fun _ => .ok 7
    Commit := fun _ => .error "context deadline exceeded" }

/-- The answer a process gets when "hostA" holds the key, created at revision
5, and the first-created read returns that same pair. -/
def strangerResponse : TxnResponse :=
  { Succeeded := false
    Responses := [.range [⟨"lock", 5, 5, "hostA", 7⟩], .range [⟨"lock", 5, 5, "hostA", 7⟩]] }

/-- A store in which "lock" is absent and a key of its namespace, "lock/a",
was created at revision 2. -/
def storeWithSibling : Store :=
  { kvs := [⟨"lock/a", 2, 2, "x", 0⟩], revision := 2 }

/-- A store in which no key belongs to the namespace of "lock". -/
def storeWithoutSibling : Store :=
  { kvs := [⟨"other", 2, 2, "x", 0⟩], revision := 2 }

/-- Surroundings on host "hostA" in which everything but the store succeeds. -/
def worldA : World :=
  { New := fun _ => .ok ⟨1⟩
    Hostname := "hostA"
    Grant := fun _ => .ok 7
    CommitErr := none }

/-! ## Evaluation lemmas for the classifier -/

theorem isLockMaster_succeeded (host : String) (rs : List ResponseOp) :
    isLockMaster host ⟨true, rs⟩ = some true := by
  simp [isLockMaster]

theorem isLockMaster_failed_empty (host : String) (kv : KeyValue) (kvs : List KeyValue)
    (rest : List ResponseOp) :
    isLockMaster host ⟨false, .range (kv :: kvs) :: .range [] :: rest⟩
      = some (decide (kv.Value = host)) := by
  by_cases h : kv.Value = host <;> simp [isLockMaster, ResponseOp.GetResponseRange, h]

theorem isLockMaster_failed_cons (host : String) (kv k : KeyValue) (kvs ks : List KeyValue)
    (rest : List ResponseOp) :
    isLockMaster host ⟨false, .range (kv :: kvs) :: .range (k :: ks) :: rest⟩
      = some (decide (k.CreateRevision = kv.CreateRevision ∧ kv.Value = host)) := by
  by_cases h : kv.Value = host <;> by_cases h2 : k.CreateRevision = kv.CreateRevision <;>
    simp [isLockMaster, ResponseOp.GetResponseRange, h, h2]

theorem masterRule_failed (host : String) (kv : KeyValue) (kvs ownerKey : List KeyValue)
    (rest : List ResponseOp) :
    masterRule host ⟨false, .range (kv :: kvs) :: .range ownerKey :: rest⟩ ↔
      (ownerKey = [] ∨ ∃ k ks, ownerKey = k :: ks ∧ k.CreateRevision = kv.CreateRevision) ∧
        kv.Value = host := by
  constructor
  · rintro (h | ⟨kv1, kvs1, o1, rest1, hrs, ho, hv⟩)
    · cases h
    · simp only [List.cons.injEq, ResponseOp.range.injEq] at hrs
      obtain ⟨⟨rfl, rfl⟩, rfl, rfl⟩ := hrs
      exact ⟨ho, hv⟩
  · rintro ⟨ho, hv⟩
    exact Or.inr ⟨kv, kvs, ownerKey, rest, rfl, ho, hv⟩

/-! ## C1 -/

/-- C1: on every well-formed response `isLockMaster` returns (it does not
panic), it returns `true` exactly when the condition succeeded or the key's
value is the caller's identity and the first-created read is empty or has the
key's creation revision, and it returns `false` in every other combination. -/
theorem isLockMaster_iff_masterRule (host : String) (rsp : TxnResponse)
    (hwf : WellFormed rsp) :
    (isLockMaster host rsp = some true ↔ masterRule host rsp) ∧
    (isLockMaster host rsp = some false ↔ ¬ masterRule host rsp) := by
  obtain ⟨succ, rs⟩ := rsp
  cases succ with
  | true =>
    simp [isLockMaster_succeeded, masterRule]
  | false =>
    obtain ⟨kv, kvs, ownerKey, rest, hrs⟩ := hwf rfl
    simp only at hrs
    subst hrs
    rw [masterRule_failed]
    cases ownerKey with
    | nil =>
      rw [isLockMaster_failed_empty]
      by_cases h : kv.Value = host <;> simp [h]
    | cons k ks =>
      rw [isLockMaster_failed_cons]
      by_cases h : kv.Value = host <;> by_cases h2 : k.CreateRevision = kv.CreateRevision <;>
        simp [h, h2]

/-- Witness for C1: the stranger-rejection scenario of the specification (key
held by "hostA" at revision 5, first-created read at revision 5, caller
"hostB"). -/
theorem isLockMaster_iff_masterRule_witness :
    WellFormed strangerResponse ∧
    (isLockMaster "hostB" strangerResponse = some true ↔ masterRule "hostB" strangerResponse) ∧
    (isLockMaster "hostB" strangerResponse = some false ↔
      ¬ masterRule "hostB" strangerResponse) :=
  have h : WellFormed strangerResponse := fun _ => ⟨_, _, _, _, rfl⟩
  ⟨h, isLockMaster_iff_masterRule "hostB" strangerResponse h⟩

/-! ## The exit paths of `TryGetLock` -/

theorem TryGetLock_paths (dl : distributedLock) (e : Env) :
    (∃ m, clientOf dl e = .error m ∧
      TryGetLock dl e = ⟨handleAfterInit dl e,
        .returned (some ("Failed to initialize ETCD client: " ++ m)), clientEvents dl, none⟩) ∨
    (∃ c m, clientOf dl e = .ok c ∧ e.Grant dl.options.TTL = .error m ∧
      TryGetLock dl e = ⟨handleAfterInit dl e,
        .returned (some ("Failed to grant lease: " ++ m)),
        clientEvents dl ++ [.grant dl.options.TTL], none⟩) ∨
    (∃ c lease, clientOf dl e = .ok c ∧ e.Grant dl.options.TTL = .ok lease ∧
      ((∃ m, e.Commit (acquireTxn dl.options.Key (baseStub dl e).Owner lease) = .error m ∧
          TryGetLock dl e = ⟨handleAfterInit dl e, .returned (some m),
            commitEvents dl e lease, none⟩) ∨
       (∃ rsp, e.Commit (acquireTxn dl.options.Key (baseStub dl e).Owner lease) = .ok rsp ∧
          ((isLockMaster e.Hostname rsp = none ∧
              TryGetLock dl e = ⟨handleAfterInit dl e, .panicked,
                commitEvents dl e lease, none⟩) ∨
           (isLockMaster e.Hostname rsp = some false ∧
              TryGetLock dl e = ⟨handleAfterInit dl e, .returned none,
                commitEvents dl e lease, some false⟩) ∨
           (isLockMaster e.Hostname rsp = some true ∧ (baseStub dl e).isMaster = none ∧
              TryGetLock dl e = ⟨handleAfterInit dl e, .panicked,
                commitEvents dl e lease, some true⟩) ∨
           (isLockMaster e.Hostname rsp = some true ∧ (baseStub dl e).isMaster = some 0 ∧
              TryGetLock dl e = ⟨handleAfterSwap dl e, .returned none,
                commitEvents dl e lease ++ [.holdingLock (handleAfterSwap dl e) zeroStub],
                some true⟩) ∨
           (∃ x, isLockMaster e.Hostname rsp = some true ∧
              (baseStub dl e).isMaster = some x ∧ x ≠ 0 ∧
              TryGetLock dl e = ⟨handleAfterInit dl e, .returned none,
                commitEvents dl e lease, some true⟩))))) := by
  cases hc : clientOf dl e with
  | error m =>
    left
    exact ⟨m, rfl, by simp [TryGetLock, hc, handleAfterInit]⟩
  | ok c =>
    right
    cases hg : e.Grant dl.options.TTL with
    | error m =>
      left
      exact ⟨c, m, rfl, rfl, by simp [TryGetLock, hc, hg, handleAfterInit]⟩
    | ok lease =>
      right
      refine ⟨c, lease, rfl, rfl, ?_⟩
      cases hm : e.Commit (acquireTxn dl.options.Key (baseStub dl e).Owner lease) with
      | error m =>
        left
        exact ⟨m, rfl, by simp [TryGetLock, hc, hg, hm, handleAfterInit, commitEvents]⟩
      | ok rsp =>
        right
        refine ⟨rsp, rfl, ?_⟩
        cases hl : isLockMaster e.Hostname rsp with
        | none =>
          left
          exact ⟨rfl, by simp [TryGetLock, hc, hg, hm, hl, handleAfterInit, commitEvents]⟩
        | some b =>
          cases b with
          | false =>
            right; left
            exact ⟨rfl, by simp [TryGetLock, hc, hg, hm, hl, handleAfterInit, commitEvents]⟩
          | true =>
            right; right
            cases hf : (baseStub dl e).isMaster with
            | none =>
              left
              exact ⟨rfl, rfl, by simp [TryGetLock, hc, hg, hm, hl, hf, handleAfterInit, commitEvents]⟩
            | some x =>
              right
              by_cases hx : x = 0
              · left
                subst hx
                exact ⟨rfl, rfl, by
                  simp [TryGetLock, hc, hg, hm, hl, hf, handleAfterSwap, commitEvents]⟩
              · right
                exact ⟨x, rfl, rfl, hx, by
                  simp [TryGetLock, hc, hg, hm, hl, hf, hx, handleAfterInit, commitEvents]⟩

/-! ## Consequences of the path analysis -/

theorem dispatched_append (a b : List Event) :
    dispatched (a ++ b) = dispatched a + dispatched b := by
  simp [dispatched]

theorem dispatched_nil : dispatched [] = 0 := rfl

theorem dispatched_cons (ev : Event) (evs : List Event) :
    dispatched (ev :: evs) = (if ev.isHoldingLock = true then 1 else 0) + dispatched evs := by
  cases h : ev.isHoldingLock <;> simp [dispatched, List.filter, h, Nat.add_comm]

theorem dispatched_clientEvents (dl : distributedLock) : dispatched (clientEvents dl) = 0 := by
  unfold clientEvents
  cases dl.options.etcdClient <;> simp [dispatched, Event.isHoldingLock]

theorem dispatched_commitEvents (dl : distributedLock) (e : Env) (lease : Int) :
    dispatched (commitEvents dl e lease) = 0 := by
  simp [commitEvents, dispatched_append, dispatched_clientEvents, dispatched_cons, dispatched_nil,
    Event.isHoldingLock]

theorem holdingLock_not_mem_clientEvents (dl d : distributedLock) (s : DistributedLockStub) :
    Event.holdingLock d s ∉ clientEvents dl := by
  unfold clientEvents
  cases dl.options.etcdClient <;> simp

theorem holdingLock_not_mem_commitEvents (dl d : distributedLock) (e : Env) (lease : Int)
    (s : DistributedLockStub) :
    Event.holdingLock d s ∉ commitEvents dl e lease := by
  simp [commitEvents, holdingLock_not_mem_clientEvents]

/-- The handle a call leaves: the compare-and-swap takes effect exactly when
the call is classified as master and the cell holds 0. -/
theorem TryGetLock_dl (dl : distributedLock) (e : Env) :
    (TryGetLock dl e).dl =
      if (TryGetLock dl e).master = some true ∧ (baseStub dl e).isMaster = some 0
        then handleAfterSwap dl e else handleAfterInit dl e := by
  rcases TryGetLock_paths dl e with ⟨m, -, h⟩ | ⟨c, m, -, -, h⟩ | ⟨c, l, -, -, h⟩
  · simp [h]
  · simp [h]
  · rcases h with ⟨m, -, h⟩ | ⟨rsp, -, ⟨-, h⟩ | ⟨-, h⟩ | ⟨-, hf, h⟩ | ⟨-, hf, h⟩ | ⟨x, -, hf, hx, h⟩⟩
    · simp [h]
    · simp [h]
    · simp [h]
    · simp [h, hf]
    · simp [h, hf]
    · simp [h, hf, hx]

/-- The number of dispatches of a call: one exactly when the call is
classified as master and the cell holds 0, none otherwise. -/
theorem TryGetLock_dispatched (dl : distributedLock) (e : Env) :
    dispatched (TryGetLock dl e).events =
      if (TryGetLock dl e).master = some true ∧ (baseStub dl e).isMaster = some 0
        then 1 else 0 := by
  rcases TryGetLock_paths dl e with ⟨m, -, h⟩ | ⟨c, m, -, -, h⟩ | ⟨c, l, -, -, h⟩
  · simp [h, dispatched_clientEvents]
  · simp [h, dispatched_append, dispatched_clientEvents, dispatched_cons, dispatched_nil,
      Event.isHoldingLock]
  · rcases h with ⟨m, -, h⟩ | ⟨rsp, -, ⟨-, h⟩ | ⟨-, h⟩ | ⟨-, hf, h⟩ | ⟨-, hf, h⟩ | ⟨x, -, hf, hx, h⟩⟩
    · simp [h, dispatched_commitEvents]
    · simp [h, dispatched_commitEvents]
    · simp [h, dispatched_commitEvents]
    · simp [h, hf, dispatched_commitEvents]
    · simp [h, hf, dispatched_append, dispatched_commitEvents, dispatched_cons, dispatched_nil,
        Event.isHoldingLock]
    · simp [h, hf, hx, dispatched_commitEvents]

theorem baseStub_of_some (dl : distributedLock) (e : Env) (s : DistributedLockStub)
    (h : dl.stub = some s) : baseStub dl e = s := by
  simp [baseStub, h]

theorem baseStub_of_none (dl : distributedLock) (e : Env) (h : dl.stub = none) :
    baseStub dl e = newStub e.Hostname := by
  simp [baseStub, h]

/-- The cell after a call, from the cell before it. -/
theorem flag_TryGetLock (dl : distributedLock) (e : Env) :
    flag (TryGetLock dl e).dl =
      if (TryGetLock dl e).master = some true ∧ (baseStub dl e).isMaster = some 0
        then some 1 else (baseStub dl e).isMaster := by
  rw [TryGetLock_dl]
  split <;> rfl

/-- The stub's owner after a call is the owner the call started with, or the
host name if the call created the stub. -/
theorem owner_TryGetLock (dl : distributedLock) (e : Env) :
    owner (TryGetLock dl e).dl = some (baseStub dl e).Owner := by
  rw [TryGetLock_dl]
  split <;> rfl

/-- After any call the stub exists, and its base for the next call is itself. -/
theorem baseStub_TryGetLock_isMaster (dl : distributedLock) (e e2 : Env) :
    (baseStub (TryGetLock dl e).dl e2).isMaster = flag (TryGetLock dl e).dl := by
  rw [TryGetLock_dl]
  split <;> rfl

theorem baseStub_TryGetLock_Owner (dl : distributedLock) (e e2 : Env) :
    (baseStub (TryGetLock dl e).dl e2).Owner = (baseStub dl e).Owner := by
  rw [TryGetLock_dl]
  split <;> rfl

theorem stub_TryGetLock_ne_none (dl : distributedLock) (e : Env) :
    (TryGetLock dl e).dl.stub ≠ none := by
  rw [TryGetLock_dl]
  split <;> simp [handleAfterSwap, handleAfterInit]

theorem baseStub_isMaster_of_stub (dl : distributedLock) (e : Env) (h : dl.stub ≠ none) :
    (baseStub dl e).isMaster = flag dl := by
  unfold baseStub flag
  cases hs : dl.stub with
  | none => exact absurd hs h
  | some s => rfl

theorem baseStub_Owner_of_owner (dl : distributedLock) (e : Env) (o : String)
    (h : owner dl = some o) : (baseStub dl e).Owner = o := by
  unfold owner at h
  unfold baseStub
  cases hs : dl.stub with
  | none => simp [hs] at h
  | some s => simpa [hs] using h

theorem totalDispatched_cons (o : Outcome) (os : List Outcome) :
    totalDispatched (o :: os) = dispatched o.events + totalDispatched os := by
  simp [totalDispatched]

/-- Once the cell exists and does not hold 0, no later call dispatches. -/
theorem totalDispatched_eq_zero (es : List Env) :
    ∀ dl : distributedLock, dl.stub ≠ none → flag dl ≠ some 0 →
      totalDispatched (run dl es) = 0 := by
  induction es with
  | nil => intro dl _ _; rfl
  | cons e es ih =>
    intro dl hs hf
    have hb := baseStub_isMaster_of_stub dl e hs
    have hd : dispatched (TryGetLock dl e).events = 0 := by
      rw [TryGetLock_dispatched, hb]
      simp [hf]
    have hf2 : flag (TryGetLock dl e).dl ≠ some 0 := by
      rw [flag_TryGetLock, hb]
      simp [hf]
    simp only [run, totalDispatched_cons, hd, Nat.zero_add]
    exact ih _ (stub_TryGetLock_ne_none dl e) hf2

theorem totalDispatched_le_one (es : List Env) :
    ∀ dl : distributedLock, totalDispatched (run dl es) ≤ 1 := by
  induction es with
  | nil => intro dl; simp [run, totalDispatched]
  | cons e es ih =>
    intro dl
    simp only [run, totalDispatched_cons]
    by_cases hc : (TryGetLock dl e).master = some true ∧ (baseStub dl e).isMaster = some 0
    · have hf : flag (TryGetLock dl e).dl ≠ some 0 := by
        rw [flag_TryGetLock, if_pos hc]
        decide
      rw [TryGetLock_dispatched, if_pos hc,
        totalDispatched_eq_zero es _ (stub_TryGetLock_ne_none dl e) hf]
    · rw [TryGetLock_dispatched, if_neg hc, Nat.zero_add]
      exact ih _

theorem StubOK_TryGetLock (dl : distributedLock) (e : Env) (h : StubOK dl) :
    flag (TryGetLock dl e).dl = some 0 ∨ flag (TryGetLock dl e).dl = some 1 := by
  rw [flag_TryGetLock]
  split
  · exact Or.inr rfl
  · rcases h with h | h
    · rw [baseStub_of_none dl e h]; exact Or.inl rfl
    · have hs : dl.stub ≠ none := by
        intro hn
        simp [flag, hn] at h
      rw [baseStub_isMaster_of_stub dl e hs]
      exact h

theorem StubOK_stateAfter (es : List Env) :
    ∀ dl : distributedLock, StubOK dl → StubOK (stateAfter dl es) := by
  induction es with
  | nil => intro dl h; exact h
  | cons e es ih =>
    intro dl h
    exact ih _ (Or.inr (StubOK_TryGetLock dl e h))

theorem flag_one_TryGetLock (dl : distributedLock) (e : Env) (h : flag dl = some 1) :
    flag (TryGetLock dl e).dl = some 1 := by
  have hs : dl.stub ≠ none := by
    intro hn
    simp [flag, hn] at h
  rw [flag_TryGetLock, baseStub_isMaster_of_stub dl e hs, h]
  simp

theorem flag_one_stateAfter (es : List Env) :
    ∀ dl : distributedLock, flag dl = some 1 → flag (stateAfter dl es) = some 1 := by
  induction es with
  | nil => intro dl h; exact h
  | cons e es ih => intro dl h; exact ih _ (flag_one_TryGetLock dl e h)

theorem owner_keep_TryGetLock (dl : distributedLock) (e : Env) (o : String)
    (h : owner dl = some o) : owner (TryGetLock dl e).dl = some o := by
  rw [owner_TryGetLock, baseStub_Owner_of_owner dl e o h]

theorem owner_stateAfter (es : List Env) :
    ∀ (dl : distributedLock) (o : String), owner dl = some o →
      owner (stateAfter dl es) = some o := by
  induction es with
  | nil => intro dl o h; exact h
  | cons e es ih => intro dl o h; exact ih _ o (owner_keep_TryGetLock dl e o h)

theorem flips_eq_zero (es : List Env) :
    ∀ dl : distributedLock, flag dl = some 1 → flips dl es = 0 := by
  induction es with
  | nil => intro dl _; rfl
  | cons e es ih =>
    intro dl h
    simp only [flips]
    rw [ih _ (flag_one_TryGetLock dl e h)]
    simp [h]

theorem flips_le_one (es : List Env) : ∀ dl : distributedLock, flips dl es ≤ 1 := by
  induction es with
  | nil => intro dl; simp [flips]
  | cons e es ih =>
    intro dl
    simp only [flips]
    by_cases hc : flag dl ≠ some 1 ∧ flag (TryGetLock dl e).dl = some 1
    · rw [if_pos hc, flips_eq_zero es _ hc.2]
    · rw [if_neg hc, Nat.zero_add]
      exact ih _

/-! ## C2 -/

/-- C2: over every finite sequence of `TryGetLock` calls on any handle, whatever
each call is answered (errors, condition succeeded, condition failed with any
value, even ill-formed answers), `HoldingLockFunc` is dispatched at most once
in total. -/
theorem callback_at_most_once (dl : distributedLock) (es : List Env) :
    totalDispatched (run dl es) ≤ 1 :=
  totalDispatched_le_one es dl

/-! ## C5 -/

/-- C5: if the transaction commit fails, `TryGetLock` returns a non-nil error
(the commit's), an existing stub is left as it was (so its `isMaster` cell has
the value it had before the call), a stub created by this call has its cell at
0, the call is not classified, and no callback is dispatched. -/
theorem commit_error_propagates (dl : distributedLock) (e : Env) (h : commitFails dl e) :
    (∃ m, (TryGetLock dl e).result = .returned (some m)) ∧
    (∀ s, dl.stub = some s → (TryGetLock dl e).dl.stub = some s) ∧
    (dl.stub = none → flag (TryGetLock dl e).dl = some 0) ∧
    (TryGetLock dl e).master = none ∧
    dispatched (TryGetLock dl e).events = 0 ∧
    ∀ d s, Event.holdingLock d s ∉ (TryGetLock dl e).events := by
  obtain ⟨hnc, lease, hg, m, hm⟩ := h
  have hT : TryGetLock dl e =
      ⟨handleAfterInit dl e, .returned (some m), commitEvents dl e lease, none⟩ := by
    rcases TryGetLock_paths dl e with ⟨m1, hc, -⟩ | ⟨c, m1, -, hg1, -⟩ | ⟨c, l, -, hg1, h⟩
    · exact absurd ⟨m1, hc⟩ hnc
    · rw [hg] at hg1; cases hg1
    · rw [hg] at hg1
      cases hg1
      rcases h with ⟨m1, hm1, h⟩ | ⟨rsp, hm1, -⟩
      · rw [hm] at hm1
        cases hm1
        exact h
      · rw [hm] at hm1; cases hm1
  rw [hT]
  refine ⟨⟨m, rfl⟩, ?_, ?_, rfl, dispatched_commitEvents dl e lease,
    fun d s => holdingLock_not_mem_commitEvents dl d e lease s⟩
  · intro s hs
    simp [handleAfterInit, baseStub_of_some dl e s hs]
  · intro hs
    simp [flag, handleAfterInit, baseStub_of_none dl e hs, newStub]

/-- Witness for C5: a handle with a stub, a failing commit. -/
theorem commit_error_propagates_witness :
    commitFails readyHandle envCommitError ∧
    (∃ m, (TryGetLock readyHandle envCommitError).result = .returned (some m)) ∧
    flag (TryGetLock readyHandle envCommitError).dl = flag readyHandle :=
  have h : commitFails readyHandle envCommitError :=
    ⟨(by rintro ⟨m, hm⟩; cases hm), 7, rfl, "context deadline exceeded", rfl⟩
  ⟨h, (commit_error_propagates readyHandle envCommitError h).1, by decide⟩

/-! ## C6 -/

/-- C6, counterexample: on a handle with neither client nor stub, a call whose
client construction fails returns the error without requesting a lease or
issuing a transaction, but it leaves a handle that differs from the one it
started with: the stub has been created. -/
theorem client_init_failure_creates_stub :
    freshHandle.options.etcdClient = none ∧
    clientInitFails freshHandle envNoClient ∧
    freshHandle.stub = none ∧
    (TryGetLock freshHandle envNoClient).result =
      .returned (some "Failed to initialize ETCD client: dial tcp: connection refused") ∧
    (TryGetLock freshHandle envNoClient).dl.stub = some { isMaster := some 0, Owner := "hostA" } ∧
    (TryGetLock freshHandle envNoClient).dl ≠ freshHandle :=
  ⟨rfl, ⟨_, rfl⟩, rfl, by decide, by decide, by decide⟩

/-- C6, amended: if the handle has no client and constructing it fails,
`TryGetLock` returns a non-nil error at once; its only action is the call of
`clientv3.New` (no lease is requested, no transaction issued, no callback
dispatched); the options are unchanged (the client is still absent); an
existing stub is unchanged, and an absent stub has been created with its cell
at 0 and the host name as owner. -/
theorem client_init_failure (dl : distributedLock) (e : Env) (m : String)
    (hnil : dl.options.etcdClient = none) (hnew : e.New (clientConfig dl) = .error m) :
    (TryGetLock dl e).result =
      .returned (some ("Failed to initialize ETCD client: " ++ m)) ∧
    (TryGetLock dl e).events = [.newClient (clientConfig dl)] ∧
    (TryGetLock dl e).master = none ∧
    (TryGetLock dl e).dl.options = dl.options ∧
    (∀ s, dl.stub = some s → (TryGetLock dl e).dl = dl) ∧
    (dl.stub = none → (TryGetLock dl e).dl.stub = some (newStub e.Hostname)) := by
  have hc : clientOf dl e = .error m := by simp [clientOf, hnil, hnew]
  have hT : TryGetLock dl e = ⟨handleAfterInit dl e,
      .returned (some ("Failed to initialize ETCD client: " ++ m)), clientEvents dl, none⟩ := by
    simp [TryGetLock, hc, handleAfterInit]
  have ho : optionsAfter dl e = dl.options := by
    obtain ⟨⟨a, k, t, c⟩, s⟩ := dl
    simp only at hnil
    subst hnil
    simp [optionsAfter, hc]
  rw [hT]
  refine ⟨rfl, by simp [clientEvents, hnil], rfl, ho, ?_, ?_⟩
  · intro s hs
    obtain ⟨o, s0⟩ := dl
    simp only at hs
    subst hs
    simp only [handleAfterInit, ho, baseStub]
  · intro hs
    simp [handleAfterInit, baseStub_of_none dl e hs]

/-- Witness for C6 (amended): the fresh handle, with `clientv3.New` failing. -/
theorem client_init_failure_witness :
    freshHandle.options.etcdClient = none ∧
    envNoClient.New (clientConfig freshHandle) = .error "dial tcp: connection refused" ∧
    (TryGetLock freshHandle envNoClient).events = [.newClient (clientConfig freshHandle)] ∧
    (TryGetLock freshHandle envNoClient).dl.options = freshHandle.options :=
  ⟨rfl, rfl,
    (client_init_failure freshHandle envNoClient _ rfl rfl).2.1,
    (client_init_failure freshHandle envNoClient _ rfl rfl).2.2.2.1⟩

/-! ## C7 -/

theorem isLockMaster_ne_none_of_wellFormed (host : String) (rsp : TxnResponse)
    (hwf : WellFormed rsp) : isLockMaster host rsp ≠ none := by
  obtain ⟨succ, rs⟩ := rsp
  cases succ with
  | true => simp [isLockMaster_succeeded]
  | false =>
    obtain ⟨kv, kvs, ownerKey, rest, hrs⟩ := hwf rfl
    simp only at hrs
    subst hrs
    cases ownerKey with
    | nil => simp [isLockMaster_failed_empty]
    | cons k ks => simp [isLockMaster_failed_cons]

/-- C7: `TryGetLock` returns a non-nil error if and only if client
construction, the lease grant or the transaction commit fails; and when all
three succeed (the commit answering a well-formed response, the stub's cell
being allocated) it returns nil, whatever the classification: the call became
master, confirmed mastery it already had, or is not master. -/
theorem error_iff_step_fails (dl : distributedLock) (e : Env) :
    ((∃ m, (TryGetLock dl e).result = .returned (some m)) ↔
      (clientInitFails dl e ∨ leaseGrantFails dl e ∨ commitFails dl e)) ∧
    (∀ rsp, allSucceed dl e rsp → WellFormed rsp → (baseStub dl e).isMaster ≠ none →
      (TryGetLock dl e).result = .returned none ∧
      (TryGetLock dl e).master = isLockMaster e.Hostname rsp ∧
      ((TryGetLock dl e).master = some true ∨ (TryGetLock dl e).master = some false)) := by
  constructor
  · constructor
    · rintro ⟨m0, hres⟩
      rcases TryGetLock_paths dl e with ⟨m, hc, -⟩ | ⟨c, m, hc, hg, -⟩ | ⟨c, l, hc, hg, h⟩
      · exact Or.inl ⟨m, hc⟩
      · refine Or.inr (Or.inl ⟨?_, m, hg⟩)
        rintro ⟨m1, hc1⟩
        rw [hc] at hc1
        cases hc1
      · have hnc : ¬ clientInitFails dl e := by
          rintro ⟨m1, hc1⟩
          rw [hc] at hc1
          cases hc1
        rcases h with ⟨m, hm, -⟩ |
          ⟨rsp, -, ⟨-, h⟩ | ⟨-, h⟩ | ⟨-, -, h⟩ | ⟨-, -, h⟩ | ⟨x, -, -, -, h⟩⟩
        · exact Or.inr (Or.inr ⟨hnc, l, hg, m, hm⟩)
        all_goals (rw [h] at hres; cases hres)
    · rintro (⟨m0, hc0⟩ | ⟨-, m0, hg0⟩ | ⟨-, l0, hg0, m0, hm0⟩)
      · rcases TryGetLock_paths dl e with ⟨m, hc, h⟩ | ⟨c, m, hc, hg, -⟩ | ⟨c, l, hc, hg, -⟩
        · exact ⟨_, by rw [h]⟩
        · rw [hc0] at hc; cases hc
        · rw [hc0] at hc; cases hc
      · rcases TryGetLock_paths dl e with ⟨m, hc, h⟩ | ⟨c, m, hc, hg, h⟩ | ⟨c, l, hc, hg, -⟩
        · exact ⟨_, by rw [h]⟩
        · exact ⟨_, by rw [h]⟩
        · rw [hg0] at hg; cases hg
      · rcases TryGetLock_paths dl e with ⟨m, hc, h⟩ | ⟨c, m, hc, hg, h⟩ | ⟨c, l, hc, hg, h⟩
        · exact ⟨_, by rw [h]⟩
        · exact ⟨_, by rw [h]⟩
        · rw [hg0] at hg
          cases hg
          rcases h with ⟨m, hm, h⟩ | ⟨rsp, hm, -⟩
          · exact ⟨_, by rw [h]⟩
          · rw [hm0] at hm; cases hm
  · rintro rsp ⟨⟨c0, hc0⟩, l0, hg0, hm0⟩ hwf hcell
    have hne := isLockMaster_ne_none_of_wellFormed e.Hostname rsp hwf
    rcases TryGetLock_paths dl e with ⟨m, hc, -⟩ | ⟨c, m, hc, hg, -⟩ | ⟨c, l, hc, hg, h⟩
    · rw [hc0] at hc; cases hc
    · rw [hg0] at hg; cases hg
    · rw [hg0] at hg
      cases hg
      rcases h with ⟨m, hm, -⟩ |
        ⟨rsp1, hm, ⟨hl, h⟩ | ⟨hl, h⟩ | ⟨hl, hf, h⟩ | ⟨hl, hf, h⟩ | ⟨x, hl, hf, hx, h⟩⟩
      · rw [hm0] at hm; cases hm
      all_goals (rw [hm0] at hm; cases hm)
      · exact absurd hl hne
      · rw [h, hl]; exact ⟨rfl, rfl, Or.inr rfl⟩
      · exact absurd hf hcell
      · rw [h, hl]; exact ⟨rfl, rfl, Or.inl rfl⟩
      · rw [h, hl]; exact ⟨rfl, rfl, Or.inl rfl⟩

/-- Witness for C7: every step succeeds on the fresh handle, the answer is
well formed, and the call returns nil. -/
theorem error_iff_step_fails_witness :
    allSucceed freshHandle envWin ⟨true, [.put, .range []]⟩ ∧
    WellFormed ⟨true, [.put, .range []]⟩ ∧
    (baseStub freshHandle envWin).isMaster ≠ none ∧
    (TryGetLock freshHandle envWin).result = .returned none :=
  have h1 : allSucceed freshHandle envWin ⟨true, [.put, .range []]⟩ :=
    ⟨⟨⟨1⟩, rfl⟩, 7, rfl, rfl⟩
  have h2 : WellFormed ⟨true, [.put, .range []]⟩ := fun h => by cases h
  have h3 : (baseStub freshHandle envWin).isMaster ≠ none := by decide
  ⟨h1, h2, h3, ((error_iff_step_fails freshHandle envWin).2 _ h1 h2 h3).1⟩

/-! ## C8 -/

/-- C8, counterexample: the first call on the fresh handle on host "hostA" wins
and dispatches the callback; the stub it passes is the zero value, whose owner
is the empty string, while the handle's stub has owner "hostA". -/
theorem callback_stub_is_not_snapshot :
    (TryGetLock freshHandle envWin).master = some true ∧
    owner (TryGetLock freshHandle envWin).dl = some "hostA" ∧
    Event.holdingLock (TryGetLock freshHandle envWin).dl { isMaster := none, Owner := "" }
      ∈ (TryGetLock freshHandle envWin).events ∧
    dispatched (TryGetLock freshHandle envWin).events = 1 ∧
    ¬ (∀ d s, Event.holdingLock d s ∈ (TryGetLock freshHandle envWin).events →
        some s.Owner = owner (TryGetLock freshHandle envWin).dl) := by
  refine ⟨by decide, by decide, by decide, by decide, ?_⟩
  intro h
  have := h _ _ (by decide :
    Event.holdingLock (TryGetLock freshHandle envWin).dl { isMaster := none, Owner := "" }
      ∈ (TryGetLock freshHandle envWin).events)
  revert this
  decide

/-- C8, amended: whenever `TryGetLock` dispatches the callback, the call was
classified as master and moved the cell from 0 to 1, and the callback's
arguments are the handle itself (as the call leaves it) and the zero-valued
stub `DistributedLockStub{}`: nil cell, empty owner. -/
theorem callback_arguments (dl : distributedLock) (e : Env) (d : distributedLock)
    (s : DistributedLockStub) (h : Event.holdingLock d s ∈ (TryGetLock dl e).events) :
    d = (TryGetLock dl e).dl ∧ s = zeroStub ∧ s.Owner = "" ∧ s.isMaster = none ∧
    (TryGetLock dl e).master = some true ∧
    (baseStub dl e).isMaster = some 0 ∧ flag (TryGetLock dl e).dl = some 1 := by
  rcases TryGetLock_paths dl e with ⟨m, -, hT⟩ | ⟨c, m, -, -, hT⟩ | ⟨c, l, -, -, hp⟩
  · rw [hT] at h
    exact absurd h (holdingLock_not_mem_clientEvents dl d s)
  · rw [hT] at h
    simp [holdingLock_not_mem_clientEvents] at h
  · rcases hp with ⟨m, -, hT⟩ |
      ⟨rsp, -, ⟨-, hT⟩ | ⟨-, hT⟩ | ⟨-, -, hT⟩ | ⟨-, hf, hT⟩ | ⟨x, -, -, -, hT⟩⟩
    · rw [hT] at h; exact absurd h (holdingLock_not_mem_commitEvents dl d e l s)
    · rw [hT] at h; exact absurd h (holdingLock_not_mem_commitEvents dl d e l s)
    · rw [hT] at h; exact absurd h (holdingLock_not_mem_commitEvents dl d e l s)
    · rw [hT] at h; exact absurd h (holdingLock_not_mem_commitEvents dl d e l s)
    · rw [hT] at h ⊢
      simp only [List.mem_append, List.mem_singleton, Event.holdingLock.injEq] at h
      rcases h with h | ⟨rfl, rfl⟩
      · exact absurd h (holdingLock_not_mem_commitEvents dl d e l s)
      · exact ⟨rfl, rfl, rfl, rfl, rfl, hf, rfl⟩
    · rw [hT] at h; exact absurd h (holdingLock_not_mem_commitEvents dl d e l s)

/-- Witness for C8 (amended): the winning first call on the fresh handle. -/
theorem callback_arguments_witness :
    Event.holdingLock (TryGetLock freshHandle envWin).dl zeroStub
      ∈ (TryGetLock freshHandle envWin).events ∧
    zeroStub.Owner = "" ∧
    flag (TryGetLock freshHandle envWin).dl = some 1 :=
  have h : Event.holdingLock (TryGetLock freshHandle envWin).dl zeroStub
      ∈ (TryGetLock freshHandle envWin).events := by decide
  ⟨h, (callback_arguments freshHandle envWin _ _ h).2.2.1,
    (callback_arguments freshHandle envWin _ _ h).2.2.2.2.2.2⟩

/-! ## C9 -/

/-- C9: start from a handle whose stub is absent or has its cell at 0 or 1, run
any finite sequence of calls `es`, then one more call `e`. After that call the
cell holds 0 or 1; a stub created by the call starts with its cell at 0 and the
host name as owner; a cell at 1 stays at 1, through this call and through any
further calls; the owner of an existing stub is kept, through this call and
through any further calls; the cell is at 1 after the call exactly when it was
at 1 before or the call was classified as master; and over the whole sequence
the cell moves to 1 at most once. -/
theorem stub_invariant (dl : distributedLock) (hok : StubOK dl) (es : List Env) (e : Env) :
    (flag (TryGetLock (stateAfter dl es) e).dl = some 0 ∨
      flag (TryGetLock (stateAfter dl es) e).dl = some 1) ∧
    ((stateAfter dl es).stub = none →
      (handleAfterInit (stateAfter dl es) e).stub = some ⟨some 0, e.Hostname⟩) ∧
    (flag (stateAfter dl es) = some 1 → flag (TryGetLock (stateAfter dl es) e).dl = some 1) ∧
    (∀ es2, flag (stateAfter dl es) = some 1 →
      flag (stateAfter (stateAfter dl es) es2) = some 1) ∧
    (∀ o, owner (stateAfter dl es) = some o →
      owner (TryGetLock (stateAfter dl es) e).dl = some o) ∧
    (∀ o es2, owner (stateAfter dl es) = some o →
      owner (stateAfter (stateAfter dl es) es2) = some o) ∧
    (flag (TryGetLock (stateAfter dl es) e).dl = some 1 ↔
      (flag (stateAfter dl es) = some 1 ∨
        (TryGetLock (stateAfter dl es) e).master = some true)) ∧
    flips dl (es ++ [e]) ≤ 1 := by
  have hb := StubOK_stateAfter es dl hok
  refine ⟨StubOK_TryGetLock _ e hb, ?_, flag_one_TryGetLock _ e,
    fun es2 h => flag_one_stateAfter es2 _ h, fun o h => owner_keep_TryGetLock _ e o h,
    fun o es2 h => owner_stateAfter es2 _ o h, ?_, flips_le_one _ dl⟩
  · intro hs
    simp [handleAfterInit, baseStub_of_none _ e hs, newStub]
  · rw [flag_TryGetLock]
    rcases hb with hs | hf
    · rw [baseStub_of_none _ e hs]
      simp [flag, hs, newStub]
    · have hs : (stateAfter dl es).stub ≠ none := by
        intro hn
        simp [flag, hn] at hf
      rw [baseStub_isMaster_of_stub _ e hs]
      rcases hf with hf | hf <;> simp [hf]

/-- Witness for C9: the fresh handle, a failed call, then a winning call. -/
theorem stub_invariant_witness :
    StubOK freshHandle ∧
    flag (TryGetLock (stateAfter freshHandle [envCommitError]) envWin).dl = some 1 ∧
    flips freshHandle ([envCommitError] ++ [envWin]) ≤ 1 :=
  have h : StubOK freshHandle := Or.inl rfl
  ⟨h, ((stub_invariant freshHandle h [envCommitError] envWin).2.2.2.2.2.2.1).2 (Or.inr (by decide)),
    (stub_invariant freshHandle h [envCommitError] envWin).2.2.2.2.2.2.2⟩

/-! ## The store: evaluation of the acquisition transaction -/

theorem inNamespace_self (key : String) : inNamespace key key = true := by
  simp [inNamespace, List.isPrefixOf_iff_prefix]

theorem lookup_key (st : Store) (key : String) (kv : KeyValue) (h : st.lookup key = some kv) :
    kv.Key = key := by
  have := List.find?_some h
  simpa using this

theorem lookup_mem (st : Store) (key : String) (kv : KeyValue) (h : st.lookup key = some kv) :
    kv ∈ st.kvs :=
  List.mem_of_find?_eq_some h

theorem firstCreated_of_mem (l : List KeyValue) (kv : KeyValue) (h : kv ∈ l) :
    ∃ f, firstCreated l = [f] ∧ f.CreateRevision ≤ kv.CreateRevision := by
  induction l with
  | nil => cases h
  | cons a rest ih =>
    rcases List.mem_cons.1 h with rfl | hm
    · cases hr : firstCreated rest with
      | nil => exact ⟨kv, by simp [firstCreated, hr], le_refl _⟩
      | cons m ms =>
        by_cases hle : kv.CreateRevision ≤ m.CreateRevision
        · exact ⟨kv, by simp [firstCreated, hr, hle], le_refl _⟩
        · exact ⟨m, by simp [firstCreated, hr, hle], le_of_lt (not_le.1 hle)⟩
    · obtain ⟨f, hf, hfle⟩ := ih hm
      by_cases hle : a.CreateRevision ≤ f.CreateRevision
      · exact ⟨a, by simp [firstCreated, hf, hle], le_trans hle hfle⟩
      · exact ⟨f, by simp [firstCreated, hf, hle], hfle⟩

/-- When the key is present, the first-created read of its namespace is not
empty and its creation revision is at most the key's. -/
theorem getFirstCreate_of_lookup (st : Store) (key : String) (kv : KeyValue)
    (h : st.lookup key = some kv) :
    ∃ f, st.getFirstCreate key = [f] ∧ f.CreateRevision ≤ kv.CreateRevision := by
  apply firstCreated_of_mem
  rw [List.mem_filter]
  refine ⟨lookup_mem st key kv h, ?_⟩
  rw [lookup_key st key kv h]
  exact inNamespace_self key

/-- The acquisition transaction on a store without the key: the condition
holds, the key is created, and the answers are those of the put and of the
first-created read. -/
theorem commit_absent (st : Store) (key owner : String) (lease : Int)
    (h : st.lookup key = none) :
    st.commit (acquireTxn key owner lease) =
      (⟨true, [.put, .range ((st.created key owner lease).getFirstCreate key)]⟩,
        st.created key owner lease) := by
  simp [Store.commit, acquireTxn, Store.createRevision, h, Store.applyOps, Store.applyOp,
    Store.put, Op.isWrite, Store.created, Store.getFirstCreate]

/-- The acquisition transaction on a store that holds the key: the condition
fails, the store is unchanged, and the answers are the key's pair and the
first-created read. -/
theorem commit_present (st : Store) (key owner : String) (lease : Int) (kv : KeyValue)
    (h : st.lookup key = some kv) (hrev : kv.CreateRevision ≠ 0) :
    st.commit (acquireTxn key owner lease) =
      (⟨false, [.range [kv], .range (st.getFirstCreate key)]⟩, st) := by
  simp [Store.commit, acquireTxn, Store.createRevision, h, hrev, Store.applyOps, Store.applyOp,
    Op.isWrite]

theorem lookup_created (st : Store) (key owner : String) (lease : Int)
    (h : st.lookup key = none) :
    (st.created key owner lease).lookup key =
      some ⟨key, ((st.revision + 1 : Nat) : Int), ((st.revision + 1 : Nat) : Int),
        owner, lease⟩ := by
  unfold Store.lookup at h ⊢
  simp [Store.created, List.find?_append, h]

theorem created_revision_ne_zero (n : Nat) : ((n + 1 : Nat) : Int) ≠ 0 := by
  omega

/-- Every answer of the store to an acquisition transaction has the shape
`isLockMaster` relies on. -/
theorem commit_shape (st : Store) (key owner : String) (lease : Int) :
    (∃ f, (st.commit (acquireTxn key owner lease)).1 = ⟨true, [.put, .range f]⟩) ∨
    (∃ kv f, st.lookup key = some kv ∧ f.CreateRevision ≤ kv.CreateRevision ∧
      st.commit (acquireTxn key owner lease) = (⟨false, [.range [kv], .range [f]]⟩, st)) := by
  cases h : st.lookup key with
  | none => exact Or.inl ⟨_, by rw [commit_absent st key owner lease h]⟩
  | some kv =>
    by_cases hrev : kv.CreateRevision = 0
    · left
      refine ⟨((st.put ((st.revision + 1 : Nat) : Int) key owner lease).getFirstCreate key), ?_⟩
      simp [Store.commit, acquireTxn, Store.createRevision, h, hrev, Store.applyOps,
        Store.applyOp]
    · right
      obtain ⟨f, hf, hle⟩ := getFirstCreate_of_lookup st key kv h
      exact ⟨kv, f, rfl, hle, by rw [commit_present st key owner lease kv h hrev, hf]⟩

theorem commit_wellFormed (st : Store) (key owner : String) (lease : Int) :
    WellFormed (st.commit (acquireTxn key owner lease)).1 := by
  rcases commit_shape st key owner lease with ⟨f, h⟩ | ⟨kv, f, -, -, h⟩
  · rw [h]; intro hs; cases hs
  · rw [h]; intro _; exact ⟨kv, [], [f], [], rfl⟩

/-! ## C10 -/

/-- C10: for every store state, the answer to the acquisition transaction has
two entries and `isLockMaster` does not panic on it, whatever the host; and
when the condition failed, the first entry is a range with exactly one pair,
the key's, the second is a range with exactly one pair, the first-created one,
whose creation revision is at most the key's, and the classification is decided
by the comparison of the two revisions and of the value with the host. -/
theorem classifier_index_safe (st : Store) (key owner : String) (lease : Int) (host : String) :
    (st.commit (acquireTxn key owner lease)).1.Responses.length = 2 ∧
    WellFormed (st.commit (acquireTxn key owner lease)).1 ∧
    isLockMaster host (st.commit (acquireTxn key owner lease)).1 ≠ none ∧
    ((st.commit (acquireTxn key owner lease)).1.Succeeded = false →
      ∃ kv f, st.lookup key = some kv ∧ kv.Key = key ∧
        (st.commit (acquireTxn key owner lease)).1.Responses = [.range [kv], .range [f]] ∧
        f.CreateRevision ≤ kv.CreateRevision ∧
        isLockMaster host (st.commit (acquireTxn key owner lease)).1 =
          some (decide (f.CreateRevision = kv.CreateRevision ∧ kv.Value = host))) := by
  refine ⟨?_, commit_wellFormed st key owner lease,
    isLockMaster_ne_none_of_wellFormed host _ (commit_wellFormed st key owner lease), ?_⟩
  · rcases commit_shape st key owner lease with ⟨f, h⟩ | ⟨kv, f, -, -, h⟩ <;> rw [h] <;> rfl
  · intro hs
    rcases commit_shape st key owner lease with ⟨f, h⟩ | ⟨kv, f, hl, hle, h⟩
    · rw [h] at hs; cases hs
    · rw [h]
      exact ⟨kv, f, hl, lookup_key st key kv hl, rfl, hle, isLockMaster_failed_cons host kv f [] [] []⟩

/-! ## C3 -/

/-- Once the key is held by `w`, every later acquisition transaction of a
process with another identity fails its condition, reads `w`, and is
classified as not master. -/
theorem race_after_win (key w : String) (kv : KeyValue) (ps : List (String × Int)) :
    ∀ st : Store, st.lookup key = some kv → kv.CreateRevision ≠ 0 → kv.Value = w →
      (∀ p ∈ ps, p.1 ≠ w) →
      (race key st ps).length = ps.length ∧
      ∀ p r, (p, r) ∈ ps.zip (race key st ps) →
        r.Succeeded = false ∧ isLockMaster p.1 r = some false ∧ valueRead r = some w := by
  induction ps with
  | nil => intro st _ _ _ _; simp [race]
  | cons q qs ih =>
    intro st hl hrev hv hne
    obtain ⟨f, hf, -⟩ := getFirstCreate_of_lookup st key kv hl
    have hc := commit_present st key q.1 q.2 kv hl hrev
    have ih2 := ih st hl hrev hv (fun p hp => hne p (List.mem_cons_of_mem _ hp))
    simp only [race, hc, List.length_cons, List.zip_cons_cons, List.mem_cons]
    refine ⟨by rw [ih2.1], ?_⟩
    rintro p r (hpr | hpr)
    · obtain ⟨rfl, rfl⟩ := Prod.mk.inj hpr
      have hq : kv.Value ≠ p.1 := by
        rw [hv]
        exact fun h => hne p (List.mem_cons_self _ _) h.symm
      refine ⟨rfl, ?_, by simp [valueRead, hv]⟩
      rw [hf, isLockMaster_failed_cons]
      simp [hq]
    · exact ih2.2 p r hpr

/-- C3: processes with pairwise distinct identities commit their acquisition
transactions, in any order, against a store without the key. The first
transaction in the commit order, and no other, has its condition succeed (so
exactly one does); every other process is classified as not master by
`isLockMaster` and reads the winner's identity as the key's value. -/
theorem first_writer_wins (key : String) (st : Store) (p : String × Int)
    (ps : List (String × Int)) (hd : ((p :: ps).map Prod.fst).Nodup)
    (habs : st.lookup key = none) :
    (race key st (p :: ps)).length = (p :: ps).length ∧
    ((race key st (p :: ps)).filter (fun r => r.Succeeded)).length = 1 ∧
    (∃ r rs, race key st (p :: ps) = r :: rs ∧ r.Succeeded = true ∧
      isLockMaster p.1 r = some true ∧
      ∀ q r2, (q, r2) ∈ ps.zip rs →
        q.1 ≠ p.1 ∧ r2.Succeeded = false ∧ isLockMaster q.1 r2 = some false ∧
          valueRead r2 = some p.1) := by
  have hne : ∀ q ∈ ps, q.1 ≠ p.1 := by
    intro q hq heq
    have h1 := (List.nodup_cons.1 hd).1
    exact h1 (heq ▸ List.mem_map_of_mem Prod.fst hq)
  have hc := commit_absent st key p.1 p.2 habs
  have hl := lookup_created st key p.1 p.2 habs
  obtain ⟨hlen, hrest⟩ := race_after_win key p.1 _ ps (st.created key p.1 p.2) hl
    (created_revision_ne_zero _) rfl hne
  have hfilter : (race key (st.created key p.1 p.2) ps).filter (fun r => r.Succeeded) = [] := by
    rw [List.filter_eq_nil_iff]
    intro r hr
    obtain ⟨i, hi, rfl⟩ := List.getElem_of_mem hr
    have hi2 : i < ps.length := hlen ▸ hi
    have hmem : (ps[i], (race key (st.created key p.1 p.2) ps)[i]) ∈
        ps.zip (race key (st.created key p.1 p.2) ps) := by
      rw [List.mem_iff_getElem]
      refine ⟨i, by simp [hi, hi2], by simp⟩
    simp [(hrest _ _ hmem).1]
  simp only [race, hc, List.length_cons, hlen, List.filter_cons, hfilter]
  refine ⟨trivial, by simp, _, _, rfl, rfl, by simp [isLockMaster], ?_⟩
  intro q r2 hq
  exact ⟨hne q (List.of_mem_zip hq).1, hrest q r2 hq⟩

/-- Witness for C3: three processes racing for "lock" on a store that holds
another key. -/
theorem first_writer_wins_witness :
    (([("a", 1), ("b", 2), ("c", 3)] : List (String × Int)).map Prod.fst).Nodup ∧
    (Store.mk [⟨"other", 2, 2, "x", 0⟩] 2).lookup "lock" = none ∧
    ((race "lock" (Store.mk [⟨"other", 2, 2, "x", 0⟩] 2)
        [("a", 1), ("b", 2), ("c", 3)]).filter (fun r => r.Succeeded)).length = 1 :=
  have h1 : (([("a", 1), ("b", 2), ("c", 3)] : List (String × Int)).map Prod.fst).Nodup := by
    decide
  have h2 : (Store.mk [⟨"other", 2, 2, "x", 0⟩] 2).lookup "lock" = none := by decide
  ⟨h1, h2, (first_writer_wins "lock" _ ("a", 1) [("b", 2), ("c", 3)] h1 h2).2.1⟩

/-! ## Calls against the store -/

theorem committed_clientEvents_append (dl : distributedLock) (evs : List Event) :
    committed (clientEvents dl ++ evs) = committed evs := by
  unfold clientEvents
  cases dl.options.etcdClient <;> simp [committed]

theorem committed_commitEvents_append (dl : distributedLock) (e : Env) (lease : Int)
    (evs : List Event) :
    committed (commitEvents dl e lease ++ evs) =
      some (acquireTxn dl.options.Key (baseStub dl e).Owner lease) := by
  simp [commitEvents, List.append_assoc, committed_clientEvents_append, committed]

theorem options_TryGetLock (dl : distributedLock) (e : Env) :
    (TryGetLock dl e).dl.options = optionsAfter dl e := by
  rw [TryGetLock_dl]
  split <;> rfl

/-- A call against the store in which client, lease grant and commit succeed:
the store moves as the transaction says, the call returns nil, and its
classification is that of the store's answer. -/
theorem TryGetLockOn_ok (st : Store) (dl : distributedLock) (w : World) (c : Client)
    (lease : Int) (hc : clientOf dl (w.env st) = .ok c)
    (hg : w.Grant dl.options.TTL = .ok lease) (he : w.CommitErr = none)
    (hcell : (baseStub dl (w.env st)).isMaster ≠ none) :
    (TryGetLockOn st dl w).1 =
      (st.commit (acquireTxn dl.options.Key (baseStub dl (w.env st)).Owner lease)).2 ∧
    (TryGetLockOn st dl w).2.result = .returned none ∧
    (TryGetLockOn st dl w).2.master = isLockMaster w.Hostname
      (st.commit (acquireTxn dl.options.Key (baseStub dl (w.env st)).Owner lease)).1 ∧
    committed (TryGetLockOn st dl w).2.events =
      some (acquireTxn dl.options.Key (baseStub dl (w.env st)).Owner lease) := by
  have hcommit : (w.env st).Commit
      (acquireTxn dl.options.Key (baseStub dl (w.env st)).Owner lease) =
      .ok (st.commit (acquireTxn dl.options.Key (baseStub dl (w.env st)).Owner lease)).1 := by
    simp [World.env, he]
  have hne := isLockMaster_ne_none_of_wellFormed w.Hostname _
    (commit_wellFormed st dl.options.Key (baseStub dl (w.env st)).Owner lease)
  have hev : ∀ evs, (match w.CommitErr, committed (commitEvents dl (w.env st) lease ++ evs) with
      | none, some t => (st.commit t).2
      | _, _ => st) =
      (st.commit (acquireTxn dl.options.Key (baseStub dl (w.env st)).Owner lease)).2 := by
    intro evs
    rw [committed_commitEvents_append, he]
  have hev0 := hev []
  rw [List.append_nil] at hev0
  have hcm0 := committed_commitEvents_append dl (w.env st) lease []
  rw [List.append_nil] at hcm0
  unfold TryGetLockOn
  rcases TryGetLock_paths dl (w.env st) with ⟨m, hc1, -⟩ | ⟨c1, m, -, hg1, -⟩ | ⟨c1, l, -, hg1, h⟩
  · rw [hc] at hc1; cases hc1
  · have : w.Grant dl.options.TTL = .error m := hg1
    rw [hg] at this; cases this
  · have hl : w.Grant dl.options.TTL = .ok l := hg1
    rw [hg] at hl
    cases hl
    rcases h with ⟨m, hm, -⟩ |
      ⟨rsp, hm, ⟨hl, h⟩ | ⟨hl, h⟩ | ⟨hl, hf, h⟩ | ⟨hl, hf, h⟩ | ⟨x, hl, hf, hx, h⟩⟩
    · rw [hcommit] at hm; cases hm
    all_goals (rw [hcommit] at hm; cases hm)
    · exact absurd hl hne
    · rw [h]
      exact ⟨hev0, rfl, hl.symm, hcm0⟩
    · exact absurd hf hcell
    · rw [h]
      exact ⟨hev _, rfl, hl.symm, committed_commitEvents_append _ _ _ _⟩
    · rw [h]
      exact ⟨hev0, rfl, hl.symm, hcm0⟩

theorem lookup_none_of_namespace (st : Store) (key : String)
    (hns : ∀ kv ∈ st.kvs, inNamespace key kv.Key = false) : st.lookup key = none := by
  unfold Store.lookup
  rw [List.find?_eq_none]
  intro kv hkv
  have h := hns kv hkv
  intro hk
  simp only [decide_eq_true_eq] at hk
  rw [hk, inNamespace_self] at h
  cases h

theorem getFirstCreate_created (st : Store) (key owner : String) (lease : Int)
    (hns : ∀ kv ∈ st.kvs, inNamespace key kv.Key = false) :
    (st.created key owner lease).getFirstCreate key =
      [⟨key, ((st.revision + 1 : Nat) : Int), ((st.revision + 1 : Nat) : Int), owner, lease⟩] := by
  have hf : st.kvs.filter (fun kv => inNamespace key kv.Key) = [] := by
    rw [List.filter_eq_nil_iff]
    intro kv hkv
    simp [hns kv hkv]
  simp [Store.getFirstCreate, Store.created, List.filter_append, hf, inNamespace_self,
    firstCreated]

/-! ## C4 -/

/-- C4, counterexample: "lock" is absent from a store that holds "lock/a",
created at revision 2. The first call wins and creates "lock" at revision 3
with value "hostA". The second call of the same process finds the key present
and unchanged, its condition fails, the first-created read returns "lock/a"
with revision 2, not 3, and `isLockMaster` classifies the process as not
master. -/
theorem reentry_fails_with_sibling_key :
    storeWithSibling.lookup "lock" = none ∧
    (storeWithSibling.commit (acquireTxn "lock" "hostA" 7)).1.Succeeded = true ∧
    (TryGetLockOn storeWithSibling freshHandle worldA).2.master = some true ∧
    (TryGetLockOn storeWithSibling freshHandle worldA).1.lookup "lock" =
      some ⟨"lock", 3, 3, "hostA", 7⟩ ∧
    ((TryGetLockOn storeWithSibling freshHandle worldA).1.commit
        (acquireTxn "lock" "hostA" 7)).1 =
      ⟨false, [.range [⟨"lock", 3, 3, "hostA", 7⟩], .range [⟨"lock/a", 2, 2, "x", 0⟩]]⟩ ∧
    isLockMaster "hostA" ((TryGetLockOn storeWithSibling freshHandle worldA).1.commit
        (acquireTxn "lock" "hostA" 7)).1 = some false ∧
    (TryGetLockOn (TryGetLockOn storeWithSibling freshHandle worldA).1
        (TryGetLockOn storeWithSibling freshHandle worldA).2.dl worldA).2.master = some false ∧
    (TryGetLockOn (TryGetLockOn storeWithSibling freshHandle worldA).1
        (TryGetLockOn storeWithSibling freshHandle worldA).2.dl worldA).1 =
      (TryGetLockOn storeWithSibling freshHandle worldA).1 := by
  refine ⟨by decide, by decide, by decide, by decide, by decide, by decide, by decide, by decide⟩

/-- C4, amended: on a store in which no key belongs to the namespace of the
contended key (so the key itself is absent), let a process on host `host`,
whose stub, if it exists, has owner `host` and an allocated cell, call
`TryGetLock` twice, client, lease grant and commit succeeding both times. The
first call's condition succeeds and creates the key with the process's
identity. The second call finds the key unchanged: its condition fails,
`isLockMaster` classifies the process as master through the key-exists branch,
no callback is dispatched by the second call, the call returns nil, and the
store is unchanged. -/
theorem reentry_without_sibling_key (st : Store) (dl : distributedLock) (w1 w2 : World)
    (host : String) (c : Client) (l1 l2 : Int)
    (hns : ∀ kv ∈ st.kvs, inNamespace dl.options.Key kv.Key = false)
    (hstub : ∀ s, dl.stub = some s → s.Owner = host ∧ s.isMaster ≠ none)
    (hc1 : clientOf dl (w1.env st) = .ok c)
    (hg1 : w1.Grant dl.options.TTL = .ok l1) (he1 : w1.CommitErr = none)
    (hh1 : w1.Hostname = host)
    (hg2 : w2.Grant dl.options.TTL = .ok l2) (he2 : w2.CommitErr = none)
    (hh2 : w2.Hostname = host) :
    st.lookup dl.options.Key = none ∧
    committed (TryGetLockOn st dl w1).2.events = some (acquireTxn dl.options.Key host l1) ∧
    (st.commit (acquireTxn dl.options.Key host l1)).1.Succeeded = true ∧
    (TryGetLockOn st dl w1).2.master = some true ∧
    (TryGetLockOn st dl w1).2.result = .returned none ∧
    (TryGetLockOn st dl w1).1.lookup dl.options.Key =
      some ⟨dl.options.Key, ((st.revision + 1 : Nat) : Int), ((st.revision + 1 : Nat) : Int),
        host, l1⟩ ∧
    committed (TryGetLockOn (TryGetLockOn st dl w1).1 (TryGetLockOn st dl w1).2.dl w2).2.events
      = some (acquireTxn dl.options.Key host l2) ∧
    ((TryGetLockOn st dl w1).1.commit (acquireTxn dl.options.Key host l2)).1.Succeeded
      = false ∧
    isLockMaster host ((TryGetLockOn st dl w1).1.commit (acquireTxn dl.options.Key host l2)).1
      = some true ∧
    (TryGetLockOn (TryGetLockOn st dl w1).1 (TryGetLockOn st dl w1).2.dl w2).2.master
      = some true ∧
    dispatched (TryGetLockOn (TryGetLockOn st dl w1).1 (TryGetLockOn st dl w1).2.dl w2).2.events
      = 0 ∧
    (TryGetLockOn (TryGetLockOn st dl w1).1 (TryGetLockOn st dl w1).2.dl w2).2.result
      = .returned none ∧
    (TryGetLockOn (TryGetLockOn st dl w1).1 (TryGetLockOn st dl w1).2.dl w2).1
      = (TryGetLockOn st dl w1).1 := by
  -- the stub the first call works with
  have hown1 : (baseStub dl (w1.env st)).Owner = host := by
    cases hs : dl.stub with
    | none => rw [baseStub_of_none _ _ hs]; exact hh1
    | some s => rw [baseStub_of_some _ _ s hs]; exact (hstub s hs).1
  have hcell1 : (baseStub dl (w1.env st)).isMaster ≠ none := by
    cases hs : dl.stub with
    | none => rw [baseStub_of_none _ _ hs]; simp [newStub]
    | some s => rw [baseStub_of_some _ _ s hs]; exact (hstub s hs).2
  have habs := lookup_none_of_namespace st dl.options.Key hns
  -- the first call
  obtain ⟨hst1, hres1, hmaster1, hcom1⟩ := TryGetLockOn_ok st dl w1 c l1 hc1 hg1 he1 hcell1
  rw [hown1] at hst1 hmaster1 hcom1
  have hcommit1 := commit_absent st dl.options.Key host l1 habs
  rw [hcommit1] at hst1 hmaster1
  simp only at hst1 hmaster1
  rw [isLockMaster_succeeded] at hmaster1
  have hlook1 := lookup_created st dl.options.Key host l1 habs
  -- the handle the first call leaves
  have hdl1 : (TryGetLockOn st dl w1).2.dl = (TryGetLock dl (w1.env st)).dl := rfl
  have hopt1 : (TryGetLockOn st dl w1).2.dl.options = optionsAfter dl (w1.env st) := by
    rw [hdl1, options_TryGetLock]
  have hkey1 : (TryGetLockOn st dl w1).2.dl.options.Key = dl.options.Key := by
    rw [hopt1]; rfl
  have httl1 : (TryGetLockOn st dl w1).2.dl.options.TTL = dl.options.TTL := by
    rw [hopt1]; rfl
  have hflag1 : flag (TryGetLockOn st dl w1).2.dl ≠ some 0 ∧
      flag (TryGetLockOn st dl w1).2.dl ≠ none := by
    have hm : (TryGetLock dl (w1.env st)).master = some true := hmaster1
    rw [hdl1, flag_TryGetLock, hm]
    by_cases h0 : (baseStub dl (w1.env st)).isMaster = some 0
    · simp [h0]
    · simp [h0, hcell1]
  have hclient2 : ∀ e2, clientOf (TryGetLockOn st dl w1).2.dl e2 = .ok c := by
    intro e2
    unfold clientOf
    rw [hopt1]
    simp [optionsAfter, hc1]
  have hbase2m : ∀ e2, (baseStub (TryGetLockOn st dl w1).2.dl e2).isMaster =
      flag (TryGetLockOn st dl w1).2.dl := fun e2 =>
    baseStub_TryGetLock_isMaster dl (w1.env st) e2
  have hbase2o : ∀ e2, (baseStub (TryGetLockOn st dl w1).2.dl e2).Owner = host := fun e2 => by
    rw [hdl1, baseStub_TryGetLock_Owner, hown1]
  -- the second call
  have hcell2 : (baseStub (TryGetLockOn st dl w1).2.dl
      (w2.env (TryGetLockOn st dl w1).1)).isMaster ≠ none := by
    rw [hbase2m]; exact hflag1.2
  obtain ⟨hst2, hres2, hmaster2, hcom2⟩ := TryGetLockOn_ok (TryGetLockOn st dl w1).1
    (TryGetLockOn st dl w1).2.dl w2 c l2 (hclient2 _) (by rw [httl1]; exact hg2) he2 hcell2
  rw [hbase2o, hkey1] at hst2 hmaster2 hcom2
  have hcommit2 : (TryGetLockOn st dl w1).1.commit (acquireTxn dl.options.Key host l2) =
      (⟨false, [.range [⟨dl.options.Key, ((st.revision + 1 : Nat) : Int),
          ((st.revision + 1 : Nat) : Int), host, l1⟩],
        .range [⟨dl.options.Key, ((st.revision + 1 : Nat) : Int),
          ((st.revision + 1 : Nat) : Int), host, l1⟩]]⟩, (TryGetLockOn st dl w1).1) := by
    rw [hst1, commit_present _ _ _ _ _ hlook1 (created_revision_ne_zero _),
      getFirstCreate_created st dl.options.Key host l1 hns]
  have hclass2 : isLockMaster host
      ((TryGetLockOn st dl w1).1.commit (acquireTxn dl.options.Key host l2)).1 = some true := by
    rw [hcommit2, isLockMaster_failed_cons]
    simp
  rw [hh2, hclass2] at hmaster2
  have hdisp2 : dispatched (TryGetLockOn (TryGetLockOn st dl w1).1
      (TryGetLockOn st dl w1).2.dl w2).2.events = 0 := by
    show dispatched (TryGetLock _ _).events = 0
    rw [TryGetLock_dispatched, hbase2m]
    simp [hflag1.1]
  refine ⟨habs, hcom1, by rw [hcommit1], hmaster1, hres1, by rw [hst1]; exact hlook1, hcom2,
    by rw [hcommit2], hclass2, hmaster2, hdisp2, hres2, ?_⟩
  rw [hst2, hcommit2]

/-- Witness for C4 (amended): the fresh handle on "hostA" against a store whose
only key is outside the namespace of "lock". -/
theorem reentry_without_sibling_key_witness :
    (∀ kv ∈ storeWithoutSibling.kvs, inNamespace freshHandle.options.Key kv.Key = false) ∧
    (∀ s, freshHandle.stub = some s → s.Owner = "hostA" ∧ s.isMaster ≠ none) ∧
    isLockMaster "hostA"
      ((TryGetLockOn storeWithoutSibling freshHandle worldA).1.commit
        (acquireTxn freshHandle.options.Key "hostA" 7)).1 = some true ∧
    dispatched (TryGetLockOn (TryGetLockOn storeWithoutSibling freshHandle worldA).1
      (TryGetLockOn storeWithoutSibling freshHandle worldA).2.dl worldA).2.events = 0 :=
  have h1 : ∀ kv ∈ storeWithoutSibling.kvs,
      inNamespace freshHandle.options.Key kv.Key = false := by decide
  have h2 : ∀ s, freshHandle.stub = some s → s.Owner = "hostA" ∧ s.isMaster ≠ none :=
    fun s hs => by cases hs
  ⟨h1, h2,
    (reentry_without_sibling_key storeWithoutSibling freshHandle worldA worldA "hostA" ⟨1⟩ 7 7
      h1 h2 rfl rfl rfl rfl rfl rfl rfl).2.2.2.2.2.2.2.2.1,
    (reentry_without_sibling_key storeWithoutSibling freshHandle worldA worldA "hostA" ⟨1⟩ 7 7
      h1 h2 rfl rfl rfl rfl rfl rfl rfl).2.2.2.2.2.2.2.2.2.2.1⟩

end DLock
